import Mathlib

/-!
Verification development for the Inter-Agency-Network private-files chaincode
(`src/Inter-Agency-Network/main.go`).

The chaincode is shallowly embedded: each Go handler becomes a Lean function
threading an explicit `ChaincodeStub` state.  The ordered key-value ledger
collections become association lists over a structured `Key` type.  JSON
encoding/decoding and the Fabric shim are external collaborators (spec section 1),
so stored byte strings are modelled by their decoded shapes (`StateValue`),
and transient-map byte strings by their decoded shapes (`TransientVal`).
Adapter (shim) failures are modelled by explicit per-call fault oracles on the
stub so that "the ledger adapter reports a failure" is expressible.
-/

set_option autoImplicit false

/-- Modelled from the spec (section 4.1): the Composite Key Codec.  The Go code
delegates key construction to the external shim's `CreateCompositeKey`, which is
not part of this repository.  Per the spec the codec is a deterministic,
injective encoding of an index name plus ordered string segments, living in a
key namespace disjoint from plain (simple) keys; we model keys as the disjoint
sum of plain string keys and composite keys, which makes the codec's required
injectivity and namespace separation hold by construction. -/
inductive Key where
  | plain (s : String)
  | composite (objectType : String) (attributes : List String)
deriving DecidableEq, Repr

/-- Modelled from the spec (section 4.1): `buildKey` / the shim's
`CreateCompositeKey`.  Lean strings are always valid UTF-8, so the shim's
UTF-8 validity failure path is unreachable in the model and the result is
total. -/
def CreateCompositeKey (objectType : String) (attributes : List String) : Key :=
  Key.composite objectType attributes

/-- The `file` struct of `main.go` (the SharedRecord): docType discriminator,
name, content hash, timestamp, owner.  Go `int` is modelled as `Int`. -/
structure file where
  ObjectType : String
  Name : String
  IPFShash : String
  Timestamp : Int
  Owner : String
deriving DecidableEq, Repr

/-- The `filePrivateDetails` struct of `main.go` (the RestrictedRecord). -/
structure filePrivateDetails where
  ObjectType : String
  Name : String
  Folio : Int
deriving DecidableEq, Repr

/-- A value stored in a ledger collection.  In Go this is a byte string; the
reachable stored byte strings are exactly JSON-marshalled `file` records,
JSON-marshalled `filePrivateDetails` records, and the one-byte `{0x00}`
sentinel used for index entries, so we model the byte string by its decoded
shape (JSON encoding being an external collaborator per spec section 1). -/
inductive StateValue where
  | file (f : file)
  | details (d : filePrivateDetails)
  | sentinel
deriving DecidableEq, Repr

/-- The `fileTransientInput` struct inside `initFile` in `main.go`.  Note that
in the Go source the `Timestamp` field carries the JSON tag `"size"`. -/
structure fileTransientInput where
  Name : String
  IPFShash : String
  Timestamp : Int
  Owner : String
  Folio : Int
deriving DecidableEq, Repr

/-- The `fileTransferTransientInput` struct inside `transferFile` in `main.go`. -/
structure fileTransferTransientInput where
  Name : String
  Owner : String
deriving DecidableEq, Repr

/-- The `fileDeleteTransientInput` struct inside `delete` in `main.go`. -/
structure fileDeleteTransientInput where
  Name : String
deriving DecidableEq, Repr

/-- A transient-map entry.  In Go this is a raw byte string later decoded by
`json.Unmarshal`; we model it by its decoded shape: one of the three input
shapes, the empty byte string, or bytes on which JSON decoding fails. -/
inductive TransientVal where
  | fileV (x : fileTransientInput)
  | transferV (x : fileTransferTransientInput)
  | deleteV (x : fileDeleteTransientInput)
  | emptyV
  | malformedV (raw : String)
deriving DecidableEq, Repr

/-- Go's `json.Unmarshal` into `fileTransientInput` is permissive: fields absent
from the JSON object are left at their zero values.  Decoding a transfer- or
delete-shaped object therefore succeeds with zero-valued missing fields. -/
def decodeFileInput : TransientVal → Option fileTransientInput
  | .fileV x => some x
  | .transferV x => some ⟨x.Name, "", 0, x.Owner, 0⟩
  | .deleteV x => some ⟨x.Name, "", 0, "", 0⟩
  | .emptyV => none
  | .malformedV _ => none

/-- Permissive JSON decode into `fileTransferTransientInput` (see `decodeFileInput`). -/
def decodeTransferInput : TransientVal → Option fileTransferTransientInput
  | .fileV x => some ⟨x.Name, x.Owner⟩
  | .transferV x => some x
  | .deleteV x => some ⟨x.Name, ""⟩
  | .emptyV => none
  | .malformedV _ => none

/-- Permissive JSON decode into `fileDeleteTransientInput` (see `decodeFileInput`). -/
def decodeDeleteInput : TransientVal → Option fileDeleteTransientInput
  | .fileV x => some ⟨x.Name⟩
  | .transferV x => some ⟨x.Name⟩
  | .deleteV x => some ⟨x.Name⟩
  | .emptyV => none
  | .malformedV _ => none

/-- The raw text of a transient entry, used only in `Failed to decode JSON of:`
error messages (for decodable shapes that message is unreachable). -/
def rawOf : TransientVal → String
  | .malformedV raw => raw
  | _ => ""

/-- Go's `json.Unmarshal` of a stored value into the `file` struct: marshalled
`file` bytes round-trip; marshalled `filePrivateDetails` bytes decode
permissively (shared fields kept, missing fields zero); the one-byte sentinel
`{0x00}` is not valid JSON and fails. -/
def unmarshalFile : StateValue → Option file
  | .file f => some f
  | .details d => some ⟨d.ObjectType, d.Name, "", 0, ""⟩
  | .sentinel => none

/-- JSON rendering of a `file` record (Go `json.Marshal`, struct field order). -/
def fileJson (f : file) : String :=
  "\x7b\"docType\":\"" ++ f.ObjectType ++ "\",\"name\":\"" ++ f.Name ++
    "\",\"ipfshash\":\"" ++ f.IPFShash ++ "\",\"timestamp\":" ++ toString f.Timestamp ++
    ",\"owner\":\"" ++ f.Owner ++ "\"\x7d"

/-- JSON rendering of a `filePrivateDetails` record. -/
def detailsJson (d : filePrivateDetails) : String :=
  "\x7b\"docType\":\"" ++ d.ObjectType ++ "\",\"name\":\"" ++ d.Name ++
    "\",\"folio\":" ++ toString d.Folio ++ "\x7d"

/-- The raw byte string of a stored value, used in error messages. -/
def valStr : StateValue → String
  | .file f => fileJson f
  | .details d => detailsJson d
  | .sentinel => "\x00"

/-- String form of a key (plain keys are their string; composite keys use the
shim's `U+0000`-delimited encoding), used in error messages. -/
def keyStr : Key → String
  | .plain s => s
  | .composite objectType attributes =>
      "\x00" ++ objectType ++ "\x00" ++
        attributes.foldl (fun acc a => acc ++ a ++ "\x00") ""

/-- Boolean strict order on strings (byte/character-wise, as the ordered
key-value store compares keys). -/
def strLtB (a b : String) : Bool := decide (a < b)

/-- Lexicographic strict order on segment lists (spec section 4.1: the codec is
order-preserving, composite keys compare by index name then segments). -/
def segsLtB : List String → List String → Bool
  | [], [] => false
  | [], _ :: _ => true
  | _ :: _, [] => false
  | a :: as, b :: bs => strLtB a b || (a == b && segsLtB as bs)

/-- Strict order on keys.  Composite keys start with the `U+0000` namespace
byte, which no plain key starts with, so every composite key sorts before every
plain key; composite keys compare by index name then segments; plain keys
compare as strings. -/
def keyLtB : Key → Key → Bool
  | .composite i s, .composite j t => strLtB i j || (i == j && segsLtB s t)
  | .composite _ _, .plain _ => true
  | .plain _, .composite _ _ => false
  | .plain a, .plain b => strLtB a b

/-- Reflexive order on keys. -/
def keyLeB (a b : Key) : Bool := keyLtB a b || a == b

/-- A ledger collection: an association list of key/value pairs.  The adapter
(spec section 2) keeps entries in ascending key order; operations below
preserve key uniqueness and sortedness of sorted inputs. -/
abbrev Partition := List (Key × StateValue)

/-- Lookup in a collection (the adapter's `get`). -/
def pget : Partition → Key → Option StateValue
  | [], _ => none
  | e :: es, k => if e.1 = k then some e.2 else pget es k

/-- Remove all bindings of a key (the adapter's `delete`; deleting an absent
key succeeds). -/
def perase : Partition → Key → Partition
  | [], _ => []
  | e :: es, k => if e.1 = k then perase es k else e :: perase es k

/-- Insert a binding at its sorted position. -/
def pinsert (k : Key) (v : StateValue) : Partition → Partition
  | [] => [(k, v)]
  | e :: es => if keyLeB k e.1 then (k, v) :: e :: es else e :: pinsert k v es

/-- Store a binding, replacing any existing binding of the key (the adapter's
`put`). -/
def pput (p : Partition) (k : Key) (v : StateValue) : Partition :=
  pinsert k v (perase p k)

/-- Forward scan of the entries with `startKey ≤ key < endKey`, in the
collection's iteration order (the adapter's `rangeScan`, spec section 2:
`startKey` inclusive, `endKey` exclusive). -/
def prange (p : Partition) (startKey endKey : Key) : List (Key × StateValue) :=
  p.filter (fun e => keyLeB startKey e.1 && keyLtB e.1 endKey)

/-- The two private-data collections named in `main.go`. -/
inductive Collection where
  | collectionFiles
  | collectionFilePrivateDetails
deriving DecidableEq, Repr

/-- The chaincode stub: the two ledger collections, the transient map, and
fault oracles describing, per call, whether the external adapter reports a
failure (`some msg`) or succeeds (`none`).  A failed call leaves the ledger
untouched and yields the adapter's message (spec section 7: `LedgerError`,
message passed through). -/
structure ChaincodeStub where
  files : Partition
  details : Partition
  transient : List (String × TransientVal)
  transientErr : Option String
  getErr : Collection → Key → Option String
  putErr : Collection → Key → Option String
  delErr : Collection → Key → Option String
  rangeErr : Key → Key → Option String
  hashErr : Collection → Key → Option String
  hashVal : Collection → Key → Option String

/-- The partition stored for a collection. -/
def ChaincodeStub.coll (s : ChaincodeStub) : Collection → Partition
  | .collectionFiles => s.files
  | .collectionFilePrivateDetails => s.details

/-- Replace the partition stored for a collection. -/
def ChaincodeStub.setColl (s : ChaincodeStub) : Collection → Partition → ChaincodeStub
  | .collectionFiles, p => { s with files := p }
  | .collectionFilePrivateDetails, p => { s with details := p }

/-- The shim's `GetTransient`. -/
def ChaincodeStub.GetTransient (s : ChaincodeStub) :
    Except String (List (String × TransientVal)) :=
  match s.transientErr with
  | some m => .error m
  | none => .ok s.transient

/-- Lookup of a transient-map key (Go map indexing `transMap[k]`). -/
def lookupT : List (String × TransientVal) → String → Option TransientVal
  | [], _ => none
  | e :: es, k => if e.1 = k then some e.2 else lookupT es k

/-- The shim's `GetPrivateData`: `.ok none` means the key is absent (Go `nil`). -/
def ChaincodeStub.GetPrivateData (s : ChaincodeStub) (c : Collection) (k : Key) :
    Except String (Option StateValue) :=
  match s.getErr c k with
  | some m => .error m
  | none => .ok (pget (s.coll c) k)

/-- The shim's `PutPrivateData`. -/
def ChaincodeStub.PutPrivateData (s : ChaincodeStub) (c : Collection) (k : Key)
    (v : StateValue) : Except String ChaincodeStub :=
  match s.putErr c k with
  | some m => .error m
  | none => .ok (s.setColl c (pput (s.coll c) k v))

/-- The shim's `DelPrivateData`. -/
def ChaincodeStub.DelPrivateData (s : ChaincodeStub) (c : Collection) (k : Key) :
    Except String ChaincodeStub :=
  match s.delErr c k with
  | some m => .error m
  | none => .ok (s.setColl c (perase (s.coll c) k))

/-- The shim's `GetPrivateDataByRange` (ascending iteration, start inclusive,
end exclusive). -/
def ChaincodeStub.GetPrivateDataByRange (s : ChaincodeStub) (c : Collection)
    (startKey endKey : Key) : Except String (List (Key × StateValue)) :=
  match s.rangeErr startKey endKey with
  | some m => .error m
  | none => .ok (prange (s.coll c) startKey endKey)

/-- The shim's `GetPrivateDataHash`: the adapter's fingerprint of the stored
value, `.ok none` when no value is stored. -/
def ChaincodeStub.GetPrivateDataHash (s : ChaincodeStub) (c : Collection) (k : Key) :
    Except String (Option String) :=
  match s.hashErr c k with
  | some m => .error m
  | none => .ok (s.hashVal c k)

/-- A successful response payload (`shim.Success`): nothing, a stored value
returned raw, a fingerprint, or the range-query result list (whose JSON array
rendering is the external encoding, order-preserving). -/
inductive Payload where
  | bytes (v : StateValue)
  | hashBytes (h : String)
  | queryResults (rs : List (Key × StateValue))
deriving DecidableEq, Repr

/-- A peer response: `shim.Success` with an optional payload, or `shim.Error`
with a message. -/
inductive Response where
  | success (payload : Option Payload)
  | error (msg : String)
deriving DecidableEq, Repr

namespace FilesPrivateChaincode

/-- `initFile` from `main.go` (lines 85-200): validate the transient `file`
payload, fail if the name already exists, then write the SharedRecord, the
RestrictedRecord and the `ipfshash~name` index sentinel.  The Go source
discards the result of the third `PutPrivateData` (line 195), which the
`match` binding `stub3` mirrors: on an adapter-reported failure the write is
skipped and execution continues. -/
def initFile (stub : ChaincodeStub) (args : List Key) : ChaincodeStub × Response :=
  match args with
  | _ :: _ =>
    (stub, .error "Incorrect number of arguments. Private file data must be passed in transient map.")
  | [] =>
    match stub.GetTransient with
    | .error m => (stub, .error ("Error getting transient: " ++ m))
    | .ok transMap =>
      match lookupT transMap "file" with
      | none => (stub, .error "file must be a key in the transient map")
      | some tv =>
        if tv = .emptyV then
          (stub, .error "file value in the transient map must be a non-empty JSON string")
        else
          match decodeFileInput tv with
          | none => (stub, .error ("Failed to decode JSON of: " ++ rawOf tv))
          | some fileInput =>
            if fileInput.Name = "" then
              (stub, .error "name field must be a non-empty string")
            else if fileInput.IPFShash = "" then
              (stub, .error "ipfshash field must be a non-empty string")
            else if fileInput.Timestamp ≤ 0 then
              (stub, .error "size field must be a positive integer")
            else if fileInput.Owner = "" then
              (stub, .error "owner field must be a non-empty string")
            else if fileInput.Folio ≤ 0 then
              (stub, .error "folio field must be a positive integer")
            else
              match stub.GetPrivateData .collectionFiles (.plain fileInput.Name) with
              | .error m => (stub, .error ("Failed to get file: " ++ m))
              | .ok (some _) => (stub, .error ("This file already exists: " ++ fileInput.Name))
              | .ok none =>
                let fileRec : file :=
                  ⟨"file", fileInput.Name, fileInput.IPFShash, fileInput.Timestamp, fileInput.Owner⟩
                match stub.PutPrivateData .collectionFiles (.plain fileInput.Name) (.file fileRec) with
                | .error m => (stub, .error m)
                | .ok stub1 =>
                  let pd : filePrivateDetails := ⟨"filePrivateDetails", fileInput.Name, fileInput.Folio⟩
                  match stub1.PutPrivateData .collectionFilePrivateDetails (.plain fileInput.Name) (.details pd) with
                  | .error m => (stub1, .error m)
                  | .ok stub2 =>
                    let ipfshashNameIndexKey := CreateCompositeKey "ipfshash~name" [fileRec.IPFShash, fileRec.Name]
                    let stub3 :=
                      match stub2.PutPrivateData .collectionFiles ipfshashNameIndexKey .sentinel with
                      | .ok s => s
                      | .error _ => stub2
                    (stub3, .success none)

/-- `readFile` from `main.go` (lines 205-224). -/
def readFile (stub : ChaincodeStub) (args : List Key) : ChaincodeStub × Response :=
  match args with
  | [name] =>
    match stub.GetPrivateData .collectionFiles name with
    | .error m =>
      (stub, .error ("\x7b\"Error\":\"Failed to get state for " ++ keyStr name ++ ": " ++ m ++ "\"\x7d"))
    | .ok none =>
      (stub, .error ("\x7b\"Error\":\"File does not exist: " ++ keyStr name ++ "\"\x7d"))
    | .ok (some v) => (stub, .success (some (.bytes v)))
  | _ => (stub, .error "Incorrect number of arguments. Expecting name of the file to query")

/-- `readFilePrivateDetails` from `main.go` (lines 229-248). -/
def readFilePrivateDetails (stub : ChaincodeStub) (args : List Key) : ChaincodeStub × Response :=
  match args with
  | [name] =>
    match stub.GetPrivateData .collectionFilePrivateDetails name with
    | .error m =>
      (stub, .error ("\x7b\"Error\":\"Failed to get private details for " ++ keyStr name ++ ": " ++ m ++ "\"\x7d"))
    | .ok none =>
      (stub, .error ("\x7b\"Error\":\"File private details does not exist: " ++ keyStr name ++ "\"\x7d"))
    | .ok (some v) => (stub, .success (some (.bytes v)))
  | _ => (stub, .error "Incorrect number of arguments. Expecting name of the file to query")

/-- `getFileHash` from `main.go` (lines 253-272). -/
def getFileHash (stub : ChaincodeStub) (args : List Key) : ChaincodeStub × Response :=
  match args with
  | [name] =>
    match stub.GetPrivateDataHash .collectionFiles name with
    | .error _ =>
      (stub, .error ("\x7b\"Error\":\"Failed to get file private data hash for " ++ keyStr name ++ "\"\x7d"))
    | .ok none =>
      (stub, .error ("\x7b\"Error\":\"File private file data hash does not exist: " ++ keyStr name ++ "\"\x7d"))
    | .ok (some h) => (stub, .success (some (.hashBytes h)))
  | _ => (stub, .error "Incorrect number of arguments. Expecting name of the file to query")

/-- `getFilePrivateDetailsHash` from `main.go` (lines 277-296). -/
def getFilePrivateDetailsHash (stub : ChaincodeStub) (args : List Key) : ChaincodeStub × Response :=
  match args with
  | [name] =>
    match stub.GetPrivateDataHash .collectionFilePrivateDetails name with
    | .error m =>
      (stub, .error ("\x7b\"Error\":\"Failed to get file private details hash for " ++ keyStr name ++ ": " ++ m ++ "\"\x7d"))
    | .ok none =>
      (stub, .error ("\x7b\"Error\":\"File private details hash does not exist: " ++ keyStr name ++ "\"\x7d"))
    | .ok (some h) => (stub, .success (some (.hashBytes h)))
  | _ => (stub, .error "Incorrect number of arguments. Expecting name of the file to query")

/-- `delete` from `main.go` (lines 301-374): read the record to recover its
hash, then delete the SharedRecord, the index sentinel (recomputed from the
fetched record's fields), and the RestrictedRecord. -/
def delete (stub : ChaincodeStub) (args : List Key) : ChaincodeStub × Response :=
  match args with
  | _ :: _ =>
    (stub, .error "Incorrect number of arguments. Private file name must be passed in transient map.")
  | [] =>
    match stub.GetTransient with
    | .error m => (stub, .error ("Error getting transient: " ++ m))
    | .ok transMap =>
      match lookupT transMap "file_delete" with
      | none => (stub, .error "file_delete must be a key in the transient map")
      | some tv =>
        if tv = .emptyV then
          (stub, .error "file_delete value in the transient map must be a non-empty JSON string")
        else
          match decodeDeleteInput tv with
          | none => (stub, .error ("Failed to decode JSON of: " ++ rawOf tv))
          | some fileDeleteInput =>
            if fileDeleteInput.Name = "" then
              (stub, .error "name field must be a non-empty string")
            else
              match stub.GetPrivateData .collectionFiles (.plain fileDeleteInput.Name) with
              | .error _ => (stub, .error ("Failed to get state for " ++ fileDeleteInput.Name))
              | .ok none => (stub, .error ("File does not exist: " ++ fileDeleteInput.Name))
              | .ok (some v) =>
                match unmarshalFile v with
                | none => (stub, .error ("Failed to decode JSON of: " ++ valStr v))
                | some fileToDelete =>
                  match stub.DelPrivateData .collectionFiles (.plain fileDeleteInput.Name) with
                  | .error m => (stub, .error ("Failed to delete state:" ++ m))
                  | .ok stub1 =>
                    let ipfshashNameIndexKey :=
                      CreateCompositeKey "ipfshash~name" [fileToDelete.IPFShash, fileToDelete.Name]
                    match stub1.DelPrivateData .collectionFiles ipfshashNameIndexKey with
                    | .error m => (stub1, .error ("Failed to delete state:" ++ m))
                    | .ok stub2 =>
                      match stub2.DelPrivateData .collectionFilePrivateDetails (.plain fileDeleteInput.Name) with
                      | .error m => (stub2, .error m)
                      | .ok stub3 => (stub3, .success none)

/-- `transferFile` from `main.go` (lines 379-441): fetch the record, replace
its `Owner` field, and rewrite it at the key `fileToTransfer.Name`.  The Go
`json.Unmarshal` failure message is an external library string, modelled by a
fixed placeholder. -/
def transferFile (stub : ChaincodeStub) (args : List Key) : ChaincodeStub × Response :=
  match args with
  | _ :: _ =>
    (stub, .error "Incorrect number of arguments. Private file data must be passed in transient map.")
  | [] =>
    match stub.GetTransient with
    | .error m => (stub, .error ("Error getting transient: " ++ m))
    | .ok transMap =>
      match lookupT transMap "file_owner" with
      | none => (stub, .error "file_owner must be a key in the transient map")
      | some tv =>
        if tv = .emptyV then
          (stub, .error "file_owner value in the transient map must be a non-empty JSON string")
        else
          match decodeTransferInput tv with
          | none => (stub, .error ("Failed to decode JSON of: " ++ rawOf tv))
          | some fileTransferInput =>
            if fileTransferInput.Name = "" then
              (stub, .error "name field must be a non-empty string")
            else if fileTransferInput.Owner = "" then
              (stub, .error "owner field must be a non-empty string")
            else
              match stub.GetPrivateData .collectionFiles (.plain fileTransferInput.Name) with
              | .error m => (stub, .error ("Failed to get file:" ++ m))
              | .ok none => (stub, .error ("File does not exist: " ++ fileTransferInput.Name))
              | .ok (some v) =>
                match unmarshalFile v with
                | none => (stub, .error "json: cannot unmarshal value")
                | some fileToTransfer0 =>
                  let fileToTransfer := { fileToTransfer0 with Owner := fileTransferInput.Owner }
                  match stub.PutPrivateData .collectionFiles (.plain fileToTransfer.Name) (.file fileToTransfer) with
                  | .error m => (stub, .error m)
                  | .ok stub1 => (stub1, .success none)

/-- `getFilesByRange` from `main.go` (lines 454-497).  The Go check is
`len(args) < 2`; arguments beyond the first two are ignored.  The JSON array
of `{Key, Record}` objects built in the buffer is the external serialization
of the returned entry list, preserving iteration order. -/
def getFilesByRange (stub : ChaincodeStub) (args : List Key) : ChaincodeStub × Response :=
  match args with
  | startKey :: endKey :: _ =>
    match stub.GetPrivateDataByRange .collectionFiles startKey endKey with
    | .error m => (stub, .error m)
    | .ok results => (stub, .success (some (.queryResults results)))
  | _ => (stub, .error "Incorrect number of arguments. Expecting 2")

/-- `Invoke` from `main.go` (lines 45-80): dispatch by operation name. -/
def Invoke (stub : ChaincodeStub) (fn : String) (args : List Key) : ChaincodeStub × Response :=
  match fn with
  | "initFile" => initFile stub args
  | "readFile" => readFile stub args
  | "readFilePrivateDetails" => readFilePrivateDetails stub args
  | "transferFile" => transferFile stub args
  | "delete" => delete stub args
  | "getFilesByRange" => getFilesByRange stub args
  | "getFileHash" => getFileHash stub args
  | "getFilePrivateDetailsHash" => getFilePrivateDetailsHash stub args
  | _ => (stub, .error "Received unknown function invocation")

end FilesPrivateChaincode

/-- A stub whose adapter reports no failures: the two partitions, the transient
map, and everywhere-`none` fault oracles. -/
def cleanStub (files details : Partition) (transient : List (String × TransientVal)) :
    ChaincodeStub :=
  { files := files
    details := details
    transient := transient
    transientErr := none
    getErr := fun _ _ => none
    putErr := fun _ _ => none
    delErr := fun _ _ => none
    rangeErr := fun _ _ => none
    hashErr := fun _ _ => none
    hashVal := fun _ _ => none }

/-! ### Lemmas about the ledger collection operations -/

theorem mem_perase {p : Partition} {k : Key} {e : Key × StateValue}
    (h : e ∈ perase p k) : e ∈ p ∧ e.1 ≠ k := by
  induction p with
  | nil => simp [perase] at h
  | cons a as ih =>
    by_cases hak : a.1 = k
    · simp only [perase, if_pos hak] at h
      rcases ih h with ⟨h1, h2⟩
      exact ⟨List.mem_cons_of_mem _ h1, h2⟩
    · simp only [perase, if_neg hak] at h
      rcases List.mem_cons.mp h with h1 | h1
      · subst h1; exact ⟨List.mem_cons_self _ _, hak⟩
      · rcases ih h1 with ⟨h2, h3⟩
        exact ⟨List.mem_cons_of_mem _ h2, h3⟩

theorem perase_of_kfree {p : Partition} {k : Key}
    (hf : ∀ e ∈ p, e.1 ≠ k) : perase p k = p := by
  induction p with
  | nil => rfl
  | cons a as ih =>
    have ha : a.1 ≠ k := hf a (List.mem_cons_self _ _)
    simp only [perase, if_neg ha]
    rw [ih (fun e he => hf e (List.mem_cons_of_mem _ he))]

theorem pget_perase_self (p : Partition) (k : Key) : pget (perase p k) k = none := by
  induction p with
  | nil => rfl
  | cons a as ih =>
    by_cases hak : a.1 = k
    · simp only [perase, if_pos hak]; exact ih
    · simp only [perase, if_neg hak, pget, ih]

theorem pget_perase_ne {p : Partition} {k k' : Key} (hne : k' ≠ k) :
    pget (perase p k) k' = pget p k' := by
  induction p with
  | nil => rfl
  | cons a as ih =>
    by_cases hak : a.1 = k
    · have hak' : a.1 ≠ k' := by rw [hak]; exact fun hh => hne hh.symm
      simp only [perase, if_pos hak, pget, if_neg hak', ih]
    · by_cases hak' : a.1 = k'
      · simp only [perase, if_neg hak, pget, if_pos hak']
      · simp only [perase, if_neg hak, pget, if_neg hak', ih]

theorem pget_pinsert_self {p : Partition} {k : Key} {v : StateValue}
    (hf : ∀ e ∈ p, e.1 ≠ k) : pget (pinsert k v p) k = some v := by
  induction p with
  | nil => simp [pinsert, pget]
  | cons a as ih =>
    have ha : a.1 ≠ k := hf a (List.mem_cons_self _ _)
    by_cases hle : keyLeB k a.1
    · simp [pinsert, hle, pget]
    · simp only [pinsert, if_neg hle, pget, if_neg ha]
      exact ih (fun e he => hf e (List.mem_cons_of_mem _ he))

theorem pget_pinsert_ne {p : Partition} {k k' : Key} {v : StateValue} (hne : k' ≠ k) :
    pget (pinsert k v p) k' = pget p k' := by
  have hkk' : k ≠ k' := fun hh => hne hh.symm
  induction p with
  | nil => simp [pinsert, pget, if_neg hkk']
  | cons a as ih =>
    by_cases hle : keyLeB k a.1
    · simp only [pinsert, if_pos hle, pget, if_neg hkk']
    · by_cases hak' : a.1 = k'
      · simp only [pinsert, if_neg hle, pget, if_pos hak']
      · simp only [pinsert, if_neg hle, pget, if_neg hak', ih]

theorem perase_pinsert {p : Partition} {k : Key} {v : StateValue}
    (hf : ∀ e ∈ p, e.1 ≠ k) : perase (pinsert k v p) k = p := by
  induction p with
  | nil => simp [pinsert, perase]
  | cons a as ih =>
    have ha : a.1 ≠ k := hf a (List.mem_cons_self _ _)
    by_cases hle : keyLeB k a.1
    · have hrest : perase as k = as :=
        perase_of_kfree (fun e he => hf e (List.mem_cons_of_mem _ he))
      simp [pinsert, hle, perase, ha, hrest]
    · simp only [pinsert, if_neg hle, perase, if_neg ha]
      rw [ih (fun e he => hf e (List.mem_cons_of_mem _ he))]

theorem pget_pput_self (p : Partition) (k : Key) (v : StateValue) :
    pget (pput p k v) k = some v :=
  pget_pinsert_self (fun _ he => (mem_perase he).2)

theorem pget_pput_ne {p : Partition} {k k' : Key} {v : StateValue} (hne : k' ≠ k) :
    pget (pput p k v) k' = pget p k' := by
  unfold pput
  rw [pget_pinsert_ne hne, pget_perase_ne hne]

theorem pput_idem (p : Partition) (k : Key) (v : StateValue) :
    pput (pput p k v) k v = pput p k v := by
  unfold pput
  rw [perase_pinsert (fun e he => (mem_perase he).2)]

theorem mem_prange {p : Partition} {a b : Key} {e : Key × StateValue} :
    e ∈ prange p a b ↔ e ∈ p ∧ keyLeB a e.1 = true ∧ keyLtB e.1 b = true := by
  simp [prange, List.mem_filter, Bool.and_eq_true]

theorem prange_sublist (p : Partition) (a b : Key) : List.Sublist (prange p a b) p :=
  List.filter_sublist p

theorem prange_pairwise {p : Partition} {a b : Key}
    (h : p.Pairwise (fun x y => keyLtB x.1 y.1 = true)) :
    (prange p a b).Pairwise (fun x y => keyLtB x.1 y.1 = true) :=
  List.Pairwise.sublist (prange_sublist p a b) h

/-! ### Inversion lemmas for the stub methods -/

theorem GetTransient_ok {s : ChaincodeStub} {t : List (String × TransientVal)}
    (h : s.GetTransient = .ok t) : s.transientErr = none ∧ t = s.transient := by
  unfold ChaincodeStub.GetTransient at h
  cases hte : s.transientErr with
  | some m => rw [hte] at h; simp at h
  | none => rw [hte] at h; exact ⟨rfl, (Except.ok.inj h).symm⟩

theorem GetPrivateData_ok {s : ChaincodeStub} {c : Collection} {k : Key}
    {o : Option StateValue} (h : s.GetPrivateData c k = .ok o) :
    s.getErr c k = none ∧ o = pget (s.coll c) k := by
  unfold ChaincodeStub.GetPrivateData at h
  cases hge : s.getErr c k with
  | some m => rw [hge] at h; simp at h
  | none => rw [hge] at h; exact ⟨rfl, (Except.ok.inj h).symm⟩

theorem PutPrivateData_ok {s s2 : ChaincodeStub} {c : Collection} {k : Key}
    {v : StateValue} (h : s.PutPrivateData c k v = .ok s2) :
    s.putErr c k = none ∧ s2 = s.setColl c (pput (s.coll c) k v) := by
  unfold ChaincodeStub.PutPrivateData at h
  cases hpe : s.putErr c k with
  | some m => rw [hpe] at h; simp at h
  | none => rw [hpe] at h; exact ⟨rfl, (Except.ok.inj h).symm⟩

theorem PutPrivateData_error {s : ChaincodeStub} {c : Collection} {k : Key}
    {v : StateValue} {m : String} (h : s.PutPrivateData c k v = .error m) :
    s.putErr c k = some m := by
  unfold ChaincodeStub.PutPrivateData at h
  cases hpe : s.putErr c k with
  | some m2 => rw [hpe] at h; rw [Except.error.inj h]
  | none => rw [hpe] at h; simp at h

theorem DelPrivateData_ok {s s2 : ChaincodeStub} {c : Collection} {k : Key}
    (h : s.DelPrivateData c k = .ok s2) :
    s.delErr c k = none ∧ s2 = s.setColl c (perase (s.coll c) k) := by
  unfold ChaincodeStub.DelPrivateData at h
  cases hde : s.delErr c k with
  | some m => rw [hde] at h; simp at h
  | none => rw [hde] at h; exact ⟨rfl, (Except.ok.inj h).symm⟩

theorem GetPrivateDataByRange_ok {s : ChaincodeStub} {c : Collection}
    {a b : Key} {rs : List (Key × StateValue)}
    (h : s.GetPrivateDataByRange c a b = .ok rs) :
    s.rangeErr a b = none ∧ rs = prange (s.coll c) a b := by
  unfold ChaincodeStub.GetPrivateDataByRange at h
  cases hre : s.rangeErr a b with
  | some m => rw [hre] at h; simp at h
  | none => rw [hre] at h; exact ⟨rfl, (Except.ok.inj h).symm⟩

/-! ### The read-only operations do not change the stub -/

theorem readFile_fst (s : ChaincodeStub) (args : List Key) :
    (FilesPrivateChaincode.readFile s args).1 = s := by
  unfold FilesPrivateChaincode.readFile
  repeat' split
  all_goals rfl

theorem readFilePrivateDetails_fst (s : ChaincodeStub) (args : List Key) :
    (FilesPrivateChaincode.readFilePrivateDetails s args).1 = s := by
  unfold FilesPrivateChaincode.readFilePrivateDetails
  repeat' split
  all_goals rfl

theorem getFileHash_fst (s : ChaincodeStub) (args : List Key) :
    (FilesPrivateChaincode.getFileHash s args).1 = s := by
  unfold FilesPrivateChaincode.getFileHash
  repeat' split
  all_goals rfl

theorem getFilePrivateDetailsHash_fst (s : ChaincodeStub) (args : List Key) :
    (FilesPrivateChaincode.getFilePrivateDetailsHash s args).1 = s := by
  unfold FilesPrivateChaincode.getFilePrivateDetailsHash
  repeat' split
  all_goals rfl

theorem getFilesByRange_fst (s : ChaincodeStub) (args : List Key) :
    (FilesPrivateChaincode.getFilesByRange s args).1 = s := by
  unfold FilesPrivateChaincode.getFilesByRange
  repeat' split
  all_goals rfl

/-! ### Success inversion for the mutating operations -/

/-- The SharedRecord built by `initFile` from a validated payload. -/
def createdFile (inp : fileTransientInput) : file :=
  ⟨"file", inp.Name, inp.IPFShash, inp.Timestamp, inp.Owner⟩

/-- The RestrictedRecord built by `initFile` from a validated payload. -/
def createdDetails (inp : fileTransientInput) : filePrivateDetails :=
  ⟨"filePrivateDetails", inp.Name, inp.Folio⟩

/-- The `ipfshash~name` index-entry key of a record. -/
def fileIndexKey (f : file) : Key :=
  CreateCompositeKey "ipfshash~name" [f.IPFShash, f.Name]

/-- The stub produced by a successful `initFile` run on payload `inp`: both
records written, and the index sentinel written exactly when the adapter does
not report a failure for that third write (whose error the Go code discards). -/
def afterCreate (s : ChaincodeStub) (inp : fileTransientInput) : ChaincodeStub :=
  let f := createdFile inp
  let files1 := pput s.files (.plain inp.Name) (.file f)
  let files2 :=
    match s.putErr .collectionFiles (fileIndexKey f) with
    | none => pput files1 (fileIndexKey f) .sentinel
    | some _ => files1
  { s with files := files2,
           details := pput s.details (.plain inp.Name) (.details (createdDetails inp)) }

theorem initFile_success_inv {s s' : ChaincodeStub} {args : List Key} {pl : Option Payload}
    (h : FilesPrivateChaincode.initFile s args = (s', .success pl)) :
    args = [] ∧ s.transientErr = none ∧ pl = none ∧
    ∃ tv inp, lookupT s.transient "file" = some tv ∧
      decodeFileInput tv = some inp ∧
      inp.Name ≠ "" ∧ inp.IPFShash ≠ "" ∧ 0 < inp.Timestamp ∧
      inp.Owner ≠ "" ∧ 0 < inp.Folio ∧
      s.getErr .collectionFiles (.plain inp.Name) = none ∧
      pget s.files (.plain inp.Name) = none ∧
      s.putErr .collectionFiles (.plain inp.Name) = none ∧
      s.putErr .collectionFilePrivateDetails (.plain inp.Name) = none ∧
      s' = afterCreate s inp := by
  unfold FilesPrivateChaincode.initFile at h
  split at h
  · simp at h
  · split at h
    · simp at h
    · rename_i transMap hGT
      obtain ⟨hte, hTM⟩ := GetTransient_ok hGT
      subst hTM
      split at h
      · simp at h
      · rename_i tv hTV
        split at h
        · simp at h
        · rename_i hNotEmpty
          split at h
          · simp at h
          · rename_i inp hDec
            split at h
            · simp at h
            · split at h
              · simp at h
              · split at h
                · simp at h
                · split at h
                  · simp at h
                  · split at h
                    · simp at h
                    · rename_i hn hh ht ho hf
                      split at h
                      · simp at h
                      · simp at h
                      · rename_i o hGet
                        obtain ⟨hge, ho2⟩ := GetPrivateData_ok hGet
                        simp only [] at h
                        split at h
                        · simp at h
                        · rename_i stub1 hPut1
                          obtain ⟨hpe1, hs1⟩ := PutPrivateData_ok hPut1
                          split at h
                          · simp at h
                          · rename_i stub2 hPut2
                            obtain ⟨hpe2, hs2⟩ := PutPrivateData_ok hPut2
                            subst hs1
                            subst hs2
                            simp only [ChaincodeStub.setColl, ChaincodeStub.coll] at h hpe2
                            split at h
                            · rename_i stub3 hPut3
                              obtain ⟨hpe3, hs3⟩ := PutPrivateData_ok hPut3
                              simp only [ChaincodeStub.setColl, ChaincodeStub.coll,
                                CreateCompositeKey] at hpe3 hs3
                              subst hs3
                              injection h with h1 h2
                              injection h2 with h2
                              refine ⟨rfl, hte, h2.symm, tv, inp, hTV, hDec, hn, hh,
                                lt_of_not_le ht, ho, lt_of_not_le hf, hge, ho2.symm,
                                hpe1, hpe2, ?_⟩
                              rw [← h1]
                              simp [afterCreate, createdFile, createdDetails, fileIndexKey,
                                CreateCompositeKey, ChaincodeStub.setColl, ChaincodeStub.coll, hpe3]
                            · rename_i m hPut3
                              have hpe3 := PutPrivateData_error hPut3
                              simp only [ChaincodeStub.setColl, ChaincodeStub.coll,
                                CreateCompositeKey] at hpe3
                              injection h with h1 h2
                              injection h2 with h2
                              refine ⟨rfl, hte, h2.symm, tv, inp, hTV, hDec, hn, hh,
                                lt_of_not_le ht, ho, lt_of_not_le hf, hge, ho2.symm,
                                hpe1, hpe2, ?_⟩
                              rw [← h1]
                              simp [afterCreate, createdFile, createdDetails, fileIndexKey,
                                CreateCompositeKey, ChaincodeStub.setColl, ChaincodeStub.coll, hpe3]

theorem transferFile_success_inv {s s' : ChaincodeStub} {args : List Key} {pl : Option Payload}
    (h : FilesPrivateChaincode.transferFile s args = (s', .success pl)) :
    args = [] ∧ s.transientErr = none ∧ pl = none ∧
    ∃ tv tin v f, lookupT s.transient "file_owner" = some tv ∧
      decodeTransferInput tv = some tin ∧ tin.Name ≠ "" ∧ tin.Owner ≠ "" ∧
      s.getErr .collectionFiles (.plain tin.Name) = none ∧
      pget s.files (.plain tin.Name) = some v ∧
      unmarshalFile v = some f ∧
      s.putErr .collectionFiles (.plain f.Name) = none ∧
      s' = { s with files := pput s.files (.plain f.Name) (.file { f with Owner := tin.Owner }) } := by
  unfold FilesPrivateChaincode.transferFile at h
  split at h
  · simp at h
  · split at h
    · simp at h
    · rename_i transMap hGT
      obtain ⟨hte, hTM⟩ := GetTransient_ok hGT
      subst hTM
      split at h
      · simp at h
      · rename_i tv hTV
        split at h
        · simp at h
        · rename_i hNotEmpty
          split at h
          · simp at h
          · rename_i tin hDec
            split at h
            · simp at h
            · split at h
              · simp at h
              · rename_i hn howner
                split at h
                · simp at h
                · simp at h
                · rename_i v hGet
                  obtain ⟨hge, hv⟩ := GetPrivateData_ok hGet
                  split at h
                  · simp at h
                  · rename_i f hUm
                    simp only [] at h
                    split at h
                    · simp at h
                    · rename_i stub1 hPut1
                      obtain ⟨hpe1, hs1⟩ := PutPrivateData_ok hPut1
                      simp only [ChaincodeStub.setColl, ChaincodeStub.coll] at hpe1 hs1
                      subst hs1
                      injection h with h1 h2
                      injection h2 with h2
                      exact ⟨rfl, hte, h2.symm, tv, tin, v, f, hTV, hDec, hn, howner,
                        hge, hv.symm, hUm, hpe1, h1.symm⟩

theorem delete_success_inv {s s' : ChaincodeStub} {args : List Key} {pl : Option Payload}
    (h : FilesPrivateChaincode.delete s args = (s', .success pl)) :
    args = [] ∧ s.transientErr = none ∧ pl = none ∧
    ∃ tv din v f, lookupT s.transient "file_delete" = some tv ∧
      decodeDeleteInput tv = some din ∧ din.Name ≠ "" ∧
      s.getErr .collectionFiles (.plain din.Name) = none ∧
      pget s.files (.plain din.Name) = some v ∧
      unmarshalFile v = some f ∧
      s' = { s with files := perase (perase s.files (.plain din.Name)) (fileIndexKey f),
                    details := perase s.details (.plain din.Name) } := by
  unfold FilesPrivateChaincode.delete at h
  split at h
  · simp at h
  · split at h
    · simp at h
    · rename_i transMap hGT
      obtain ⟨hte, hTM⟩ := GetTransient_ok hGT
      subst hTM
      split at h
      · simp at h
      · rename_i tv hTV
        split at h
        · simp at h
        · rename_i hNotEmpty
          split at h
          · simp at h
          · rename_i din hDec
            split at h
            · simp at h
            · rename_i hn
              split at h
              · simp at h
              · simp at h
              · rename_i v hGet
                obtain ⟨hge, hv⟩ := GetPrivateData_ok hGet
                split at h
                · simp at h
                · rename_i f hUm
                  split at h
                  · simp at h
                  · rename_i stub1 hDel1
                    obtain ⟨hde1, hs1⟩ := DelPrivateData_ok hDel1
                    subst hs1
                    simp only [ChaincodeStub.setColl, ChaincodeStub.coll] at h
                    split at h
                    · simp at h
                    · rename_i stub2 hDel2
                      obtain ⟨hde2, hs2⟩ := DelPrivateData_ok hDel2
                      subst hs2
                      simp only [ChaincodeStub.setColl, ChaincodeStub.coll] at h
                      split at h
                      · simp at h
                      · rename_i stub3 hDel3
                        obtain ⟨hde3, hs3⟩ := DelPrivateData_ok hDel3
                        simp only [ChaincodeStub.setColl, ChaincodeStub.coll,
                          CreateCompositeKey] at hs3
                        subst hs3
                        injection h with h1 h2
                        injection h2 with h2
                        refine ⟨rfl, hte, h2.symm, tv, din, v, f, hTV, hDec, hn,
                          hge, hv.symm, hUm, ?_⟩
                        rw [← h1]
                        simp [fileIndexKey, CreateCompositeKey]

/-! ### Forward evaluation of the mutating operations under explicit enabling conditions -/

theorem initFile_eval {s : ChaincodeStub} {inp : fileTransientInput}
    (hte : s.transientErr = none)
    (hl : lookupT s.transient "file" = some (.fileV inp))
    (hn : inp.Name ≠ "") (hh : inp.IPFShash ≠ "") (ht : 0 < inp.Timestamp)
    (ho : inp.Owner ≠ "") (hf : 0 < inp.Folio)
    (hge : s.getErr .collectionFiles (.plain inp.Name) = none)
    (habs : pget s.files (.plain inp.Name) = none)
    (hpe1 : s.putErr .collectionFiles (.plain inp.Name) = none)
    (hpe2 : s.putErr .collectionFilePrivateDetails (.plain inp.Name) = none) :
    FilesPrivateChaincode.initFile s [] = (afterCreate s inp, .success none) := by
  have ht' : ¬inp.Timestamp ≤ 0 := not_le.mpr ht
  have hf' : ¬inp.Folio ≤ 0 := not_le.mpr hf
  unfold FilesPrivateChaincode.initFile
  cases hpe3 : s.putErr .collectionFiles (.composite "ipfshash~name" [inp.IPFShash, inp.Name]) with
  | none =>
    simp [ChaincodeStub.GetTransient, hte, hl, decodeFileInput, hn, hh, ht', ho, hf',
      ChaincodeStub.GetPrivateData, ChaincodeStub.coll, hge, habs,
      ChaincodeStub.PutPrivateData, ChaincodeStub.setColl, hpe1, hpe2, hpe3,
      CreateCompositeKey, afterCreate, createdFile, createdDetails, fileIndexKey]
  | some m =>
    simp [ChaincodeStub.GetTransient, hte, hl, decodeFileInput, hn, hh, ht', ho, hf',
      ChaincodeStub.GetPrivateData, ChaincodeStub.coll, hge, habs,
      ChaincodeStub.PutPrivateData, ChaincodeStub.setColl, hpe1, hpe2, hpe3,
      CreateCompositeKey, afterCreate, createdFile, createdDetails, fileIndexKey]

theorem transferFile_eval {s : ChaincodeStub} {tin : fileTransferTransientInput} {f : file}
    (hte : s.transientErr = none)
    (hl : lookupT s.transient "file_owner" = some (.transferV tin))
    (hn : tin.Name ≠ "") (ho : tin.Owner ≠ "")
    (hge : s.getErr .collectionFiles (.plain tin.Name) = none)
    (hv : pget s.files (.plain tin.Name) = some (.file f))
    (hpe : s.putErr .collectionFiles (.plain f.Name) = none) :
    FilesPrivateChaincode.transferFile s [] =
      ({ s with files := pput s.files (.plain f.Name) (.file { f with Owner := tin.Owner }) },
        .success none) := by
  unfold FilesPrivateChaincode.transferFile
  simp [ChaincodeStub.GetTransient, hte, hl, decodeTransferInput, hn, ho,
    ChaincodeStub.GetPrivateData, ChaincodeStub.coll, hge, hv, unmarshalFile,
    ChaincodeStub.PutPrivateData, ChaincodeStub.setColl, hpe]

/-! ### The shared-partition well-formedness invariant (I2 plus record keying) -/

/-- Every plain shared-partition key holds a `file` document whose `Name` field
equals the key: records are stored under their own name (`initFile` stores the
record at `fileInput.Name` with `Name := fileInput.Name`). -/
def recordsWellKeyed (p : Partition) : Prop :=
  ∀ n v, pget p (.plain n) = some v → ∃ f, v = .file f ∧ f.Name = n

/-- Invariant I2 of the spec: a SharedRecord with `contentHash = h` and
`name = n` exists iff the `ipfshash~name` IndexEntry for `(h, n)` exists in the
shared partition. -/
def indexConsistent (p : Partition) : Prop :=
  ∀ h n, (∃ f, pget p (.plain n) = some (.file f) ∧ f.IPFShash = h ∧ f.Name = n) ↔
    (pget p (.composite "ipfshash~name" [h, n])).isSome

/-- Well-formedness of the shared partition: records keyed by their name, and
the content-hash index consistent with the records. -/
def WFfiles (p : Partition) : Prop := recordsWellKeyed p ∧ indexConsistent p

theorem pget_perase_some {p : Partition} {k0 k : Key} {v : StateValue}
    (h : pget (perase p k0) k = some v) : pget p k = some v := by
  by_cases hk : k = k0
  · subst hk; rw [pget_perase_self] at h; exact absurd h (by simp)
  · rwa [pget_perase_ne hk] at h

theorem WFfiles_nil : WFfiles [] := by
  constructor
  · intro n v hg; simp [pget] at hg
  · intro h n; simp [pget]

theorem WFfiles_afterCreate {s : ChaincodeStub} {inp : fileTransientInput}
    (hput : ∀ k, s.putErr .collectionFiles k = none)
    (hwf : WFfiles s.files)
    (habs : pget s.files (.plain inp.Name) = none) :
    WFfiles (afterCreate s inp).files := by
  obtain ⟨hk, hi⟩ := hwf
  have hfiles : (afterCreate s inp).files =
      pput (pput s.files (.plain inp.Name)
          (.file ⟨"file", inp.Name, inp.IPFShash, inp.Timestamp, inp.Owner⟩))
        (.composite "ipfshash~name" [inp.IPFShash, inp.Name]) .sentinel := by
    simp [afterCreate, createdFile, createdDetails, fileIndexKey, CreateCompositeKey,
      hput (Key.composite "ipfshash~name" [inp.IPFShash, inp.Name])]
  rw [hfiles]
  have e1 : pget (pput (pput s.files (.plain inp.Name)
        (.file ⟨"file", inp.Name, inp.IPFShash, inp.Timestamp, inp.Owner⟩))
        (.composite "ipfshash~name" [inp.IPFShash, inp.Name]) .sentinel)
      (.plain inp.Name) =
      some (.file ⟨"file", inp.Name, inp.IPFShash, inp.Timestamp, inp.Owner⟩) := by
    rw [pget_pput_ne (by simp), pget_pput_self]
  constructor
  · intro n v hg
    by_cases hn : n = inp.Name
    · subst hn
      rw [e1] at hg
      exact ⟨_, (Option.some.inj hg).symm, rfl⟩
    · rw [pget_pput_ne (by simp), pget_pput_ne (by simp [hn])] at hg
      exact hk n v hg
  · intro h n
    by_cases hn : n = inp.Name
    · subst hn
      by_cases hh : h = inp.IPFShash
      · subst hh
        refine iff_of_true ⟨_, e1, rfl, rfl⟩ ?_
        rw [pget_pput_self]
        rfl
      · have e5 : pget (pput (pput s.files (.plain inp.Name)
              (.file ⟨"file", inp.Name, inp.IPFShash, inp.Timestamp, inp.Owner⟩))
              (.composite "ipfshash~name" [inp.IPFShash, inp.Name]) .sentinel)
            (.composite "ipfshash~name" [h, inp.Name]) =
            pget s.files (.composite "ipfshash~name" [h, inp.Name]) := by
          rw [pget_pput_ne (by simp [hh]), pget_pput_ne (by simp)]
        refine iff_of_false ?_ ?_
        · rintro ⟨f, hf1, hf2, hf3⟩
          rw [e1] at hf1
          have : f = ⟨"file", inp.Name, inp.IPFShash, inp.Timestamp, inp.Owner⟩ :=
            (StateValue.file.inj (Option.some.inj hf1)).symm
          subst this
          exact hh hf2.symm
        · rw [e5]
          intro hR
          obtain ⟨f, hf1, _, _⟩ := (hi h inp.Name).mpr hR
          rw [habs] at hf1
          exact absurd hf1 (by simp)
    · have e3 : pget (pput (pput s.files (.plain inp.Name)
            (.file ⟨"file", inp.Name, inp.IPFShash, inp.Timestamp, inp.Owner⟩))
            (.composite "ipfshash~name" [inp.IPFShash, inp.Name]) .sentinel)
          (.plain n) = pget s.files (.plain n) := by
        rw [pget_pput_ne (by simp), pget_pput_ne (by simp [hn])]
      have e4 : pget (pput (pput s.files (.plain inp.Name)
            (.file ⟨"file", inp.Name, inp.IPFShash, inp.Timestamp, inp.Owner⟩))
            (.composite "ipfshash~name" [inp.IPFShash, inp.Name]) .sentinel)
          (.composite "ipfshash~name" [h, n]) =
          pget s.files (.composite "ipfshash~name" [h, n]) := by
        rw [pget_pput_ne (by simp [hn]), pget_pput_ne (by simp)]
      rw [e3, e4]
      exact hi h n

theorem WFfiles_transfer {s s' : ChaincodeStub} {args : List Key} {pl : Option Payload}
    (hwf : WFfiles s.files)
    (h : FilesPrivateChaincode.transferFile s args = (s', .success pl)) :
    WFfiles s'.files := by
  obtain ⟨-, -, -, tv, tin, v, f, hTV, hDec, hn, how, hge, hv, hUm, hpe, hs'⟩ :=
    transferFile_success_inv h
  obtain ⟨hk, hi⟩ := hwf
  obtain ⟨f0, hv0, hname0⟩ := hk tin.Name v hv
  subst hv0
  have hf : f = f0 := by simpa [unmarshalFile] using hUm.symm
  subst hf
  subst hs'
  show WFfiles (pput s.files (.plain f.Name) (.file { f with Owner := tin.Owner }))
  constructor
  · intro n w hg
    by_cases hn2 : n = f.Name
    · subst hn2
      rw [pget_pput_self] at hg
      exact ⟨{ f with Owner := tin.Owner }, (Option.some.inj hg).symm, rfl⟩
    · rw [pget_pput_ne (by simp [hn2])] at hg
      exact hk n w hg
  · intro h2 n
    have hRHS : pget (pput s.files (.plain f.Name) (.file { f with Owner := tin.Owner }))
        (.composite "ipfshash~name" [h2, n]) =
        pget s.files (.composite "ipfshash~name" [h2, n]) :=
      pget_pput_ne (by simp)
    by_cases hn2 : n = f.Name
    · subst hn2
      rw [hRHS]
      constructor
      · rintro ⟨f', hf1, hf2, hf3⟩
        rw [pget_pput_self] at hf1
        have hf' : f' = { f with Owner := tin.Owner } :=
          (StateValue.file.inj (Option.some.inj hf1)).symm
        subst hf'
        refine (hi h2 f.Name).mp ⟨f, ?_, hf2, rfl⟩
        rw [hname0]
        exact hv
      · intro hR
        obtain ⟨f', hf1, hf2, hf3⟩ := (hi h2 f.Name).mpr hR
        rw [hname0, hv] at hf1
        have heq : f = f' := StateValue.file.inj (Option.some.inj hf1)
        refine ⟨{ f with Owner := tin.Owner }, ?_, ?_, rfl⟩
        · rw [pget_pput_self]
        · rw [heq]
          exact hf2
    · rw [hRHS, pget_pput_ne (by simp [hn2])]
      exact hi h2 n

theorem WFfiles_delete {s s' : ChaincodeStub} {args : List Key} {pl : Option Payload}
    (hwf : WFfiles s.files)
    (h : FilesPrivateChaincode.delete s args = (s', .success pl)) :
    WFfiles s'.files := by
  obtain ⟨-, -, -, tv, din, v, f, hTV, hDec, hn, hge, hv, hUm, hs'⟩ :=
    delete_success_inv h
  obtain ⟨hk, hi⟩ := hwf
  obtain ⟨f0, hv0, hname0⟩ := hk din.Name v hv
  subst hv0
  have hf : f = f0 := by simpa [unmarshalFile] using hUm.symm
  subst hf
  subst hs'
  show WFfiles (perase (perase s.files (.plain din.Name)) (fileIndexKey f))
  constructor
  · intro n w hg
    exact hk n w (pget_perase_some (pget_perase_some hg))
  · intro h2 n
    by_cases hn2 : n = din.Name
    · subst hn2
      have eL : pget (perase (perase s.files (.plain din.Name)) (fileIndexKey f))
          (.plain din.Name) = none := by
        rw [pget_perase_ne (by simp [fileIndexKey, CreateCompositeKey]), pget_perase_self]
      refine iff_of_false ?_ ?_
      · rintro ⟨f', hf1, -, -⟩
        rw [eL] at hf1
        exact absurd hf1 (by simp)
      · by_cases hh2 : h2 = f.IPFShash
        · subst hh2
          have eR : pget (perase (perase s.files (.plain din.Name)) (fileIndexKey f))
              (.composite "ipfshash~name" [f.IPFShash, din.Name]) = none := by
            rw [show (Key.composite "ipfshash~name" [f.IPFShash, din.Name]) = fileIndexKey f by
              simp [fileIndexKey, CreateCompositeKey, hname0]]
            rw [pget_perase_self]
          rw [eR]
          simp
        · have eR : pget (perase (perase s.files (.plain din.Name)) (fileIndexKey f))
              (.composite "ipfshash~name" [h2, din.Name]) =
              pget s.files (.composite "ipfshash~name" [h2, din.Name]) := by
            rw [pget_perase_ne (by simp [fileIndexKey, CreateCompositeKey, hh2]),
              pget_perase_ne (by simp)]
          rw [eR]
          intro hR
          obtain ⟨f', hf1, hf2, -⟩ := (hi h2 din.Name).mpr hR
          rw [hv] at hf1
          have heq : f = f' := StateValue.file.inj (Option.some.inj hf1)
          rw [← heq] at hf2
          exact hh2 hf2.symm
    · have eL : pget (perase (perase s.files (.plain din.Name)) (fileIndexKey f))
          (.plain n) = pget s.files (.plain n) := by
        rw [pget_perase_ne (by simp [fileIndexKey, CreateCompositeKey]),
          pget_perase_ne (by simp [hn2])]
      have hkey : (Key.composite "ipfshash~name" [h2, n]) ≠ fileIndexKey f := by
        simp only [fileIndexKey, CreateCompositeKey]
        intro hEq
        obtain ⟨-, hlist⟩ := Key.composite.inj hEq
        obtain ⟨-, hlist2⟩ := List.cons.inj hlist
        obtain ⟨hnn, -⟩ := List.cons.inj hlist2
        exact hn2 (hnn.trans hname0)
      have eR : pget (perase (perase s.files (.plain din.Name)) (fileIndexKey f))
          (.composite "ipfshash~name" [h2, n]) =
          pget s.files (.composite "ipfshash~name" [h2, n]) := by
        rw [pget_perase_ne hkey, pget_perase_ne (by simp)]
      rw [eL, eR]
      exact hi h2 n

theorem WFfiles_invoke {s s' : ChaincodeStub} {fn : String} {args : List Key} {pl : Option Payload}
    (hput : ∀ k, s.putErr .collectionFiles k = none)
    (hwf : WFfiles s.files)
    (h : FilesPrivateChaincode.Invoke s fn args = (s', .success pl)) :
    WFfiles s'.files := by
  unfold FilesPrivateChaincode.Invoke at h
  split at h
  · obtain ⟨-, -, -, tv, inp, hTV, hDec, hn, hh, ht, ho, hf, hge, habs, hpe1, hpe2, hs'⟩ :=
      initFile_success_inv h
    subst hs'
    exact WFfiles_afterCreate hput hwf habs
  · have hs : s' = s := by
      have h1 := congrArg Prod.fst h
      rw [readFile_fst] at h1
      exact h1.symm
    rw [hs]
    exact hwf
  · have hs : s' = s := by
      have h1 := congrArg Prod.fst h
      rw [readFilePrivateDetails_fst] at h1
      exact h1.symm
    rw [hs]
    exact hwf
  · exact WFfiles_transfer hwf h
  · exact WFfiles_delete hwf h
  · have hs : s' = s := by
      have h1 := congrArg Prod.fst h
      rw [getFilesByRange_fst] at h1
      exact h1.symm
    rw [hs]
    exact hwf
  · have hs : s' = s := by
      have h1 := congrArg Prod.fst h
      rw [getFileHash_fst] at h1
      exact h1.symm
    rw [hs]
    exact hwf
  · have hs : s' = s := by
      have h1 := congrArg Prod.fst h
      rw [getFilePrivateDetailsHash_fst] at h1
      exact h1.symm
    rw [hs]
    exact hwf
  · simp at h

/-! ### State facts after a successful create -/

theorem afterCreate_record_present (s : ChaincodeStub) (inp : fileTransientInput) :
    pget (afterCreate s inp).files (.plain inp.Name) =
      some (.file ⟨"file", inp.Name, inp.IPFShash, inp.Timestamp, inp.Owner⟩) := by
  simp only [afterCreate]
  split
  · simp only [createdFile, fileIndexKey, CreateCompositeKey]
    rw [pget_pput_ne (by simp), pget_pput_self]
  · simp only [createdFile]
    rw [pget_pput_self]

theorem afterCreate_details_present (s : ChaincodeStub) (inp : fileTransientInput) :
    pget (afterCreate s inp).details (.plain inp.Name) =
      some (.details ⟨"filePrivateDetails", inp.Name, inp.Folio⟩) := by
  simp only [afterCreate, createdDetails]
  rw [pget_pput_self]

theorem afterCreate_index_present {s : ChaincodeStub} (inp : fileTransientInput)
    (hput : s.putErr .collectionFiles
      (.composite "ipfshash~name" [inp.IPFShash, inp.Name]) = none) :
    pget (afterCreate s inp).files (.composite "ipfshash~name" [inp.IPFShash, inp.Name]) =
      some .sentinel := by
  have hfiles : (afterCreate s inp).files =
      pput (pput s.files (.plain inp.Name)
          (.file ⟨"file", inp.Name, inp.IPFShash, inp.Timestamp, inp.Owner⟩))
        (.composite "ipfshash~name" [inp.IPFShash, inp.Name]) .sentinel := by
    simp [afterCreate, createdFile, createdDetails, fileIndexKey, CreateCompositeKey, hput]
  rw [hfiles, pget_pput_self]

/-! ### Claim theorems -/

/-- C1: for every valid create payload (all validation rules satisfied, name
not yet present, adapter reporting no failures), `initFile` succeeds, and
`readFile` / `readFilePrivateDetails` then return exactly the SharedRecord
`{docType:"file", name, ipfshash, timestamp, owner}` and RestrictedRecord
`{docType:"filePrivateDetails", name, folio}` built from the payload — in
particular the stored record carries the payload's timestamp. -/
theorem c1_create_then_read {s : ChaincodeStub} {inp : fileTransientInput}
    (hte : s.transientErr = none)
    (hl : lookupT s.transient "file" = some (.fileV inp))
    (hn : inp.Name ≠ "") (hh : inp.IPFShash ≠ "") (ht : 0 < inp.Timestamp)
    (ho : inp.Owner ≠ "") (hf : 0 < inp.Folio)
    (hge : s.getErr .collectionFiles (.plain inp.Name) = none)
    (hgd : s.getErr .collectionFilePrivateDetails (.plain inp.Name) = none)
    (habs : pget s.files (.plain inp.Name) = none)
    (hpe1 : s.putErr .collectionFiles (.plain inp.Name) = none)
    (hpe2 : s.putErr .collectionFilePrivateDetails (.plain inp.Name) = none) :
    (FilesPrivateChaincode.initFile s []).2 = .success none ∧
    FilesPrivateChaincode.readFile (FilesPrivateChaincode.initFile s []).1 [.plain inp.Name] =
      ((FilesPrivateChaincode.initFile s []).1,
        .success (some (.bytes (.file ⟨"file", inp.Name, inp.IPFShash, inp.Timestamp, inp.Owner⟩)))) ∧
    FilesPrivateChaincode.readFilePrivateDetails
        (FilesPrivateChaincode.initFile s []).1 [.plain inp.Name] =
      ((FilesPrivateChaincode.initFile s []).1,
        .success (some (.bytes (.details ⟨"filePrivateDetails", inp.Name, inp.Folio⟩)))) := by
  have he := initFile_eval hte hl hn hh ht ho hf hge habs hpe1 hpe2
  rw [he]
  have hge' : (afterCreate s inp).getErr .collectionFiles (.plain inp.Name) = none := by
    simp only [afterCreate]
    exact hge
  have hgd' : (afterCreate s inp).getErr .collectionFilePrivateDetails (.plain inp.Name) = none := by
    simp only [afterCreate]
    exact hgd
  refine ⟨rfl, ?_, ?_⟩
  · unfold FilesPrivateChaincode.readFile
    simp [ChaincodeStub.GetPrivateData, ChaincodeStub.coll, hge',
      afterCreate_record_present s inp]
  · unfold FilesPrivateChaincode.readFilePrivateDetails
    simp [ChaincodeStub.GetPrivateData, ChaincodeStub.coll, hgd',
      afterCreate_details_present s inp]

/-- Stub for the C1 scenario: empty ledger, transient payload
`{name:"f1", ipfshash:"abc123", size:100, owner:"orgA", folio:7}`. -/
def c1Stub : ChaincodeStub :=
  cleanStub [] [] [("file", .fileV ⟨"f1", "abc123", 100, "orgA", 7⟩)]

/-- Witness for C1 at the spec's concrete scenario. -/
theorem c1_create_then_read_witness :
    (FilesPrivateChaincode.initFile c1Stub []).2 = .success none ∧
    FilesPrivateChaincode.readFile (FilesPrivateChaincode.initFile c1Stub []).1 [.plain "f1"] =
      ((FilesPrivateChaincode.initFile c1Stub []).1,
        .success (some (.bytes (.file ⟨"file", "f1", "abc123", 100, "orgA"⟩)))) ∧
    FilesPrivateChaincode.readFilePrivateDetails
        (FilesPrivateChaincode.initFile c1Stub []).1 [.plain "f1"] =
      ((FilesPrivateChaincode.initFile c1Stub []).1,
        .success (some (.bytes (.details ⟨"filePrivateDetails", "f1", 7⟩)))) :=
  @c1_create_then_read c1Stub ⟨"f1", "abc123", 100, "orgA", 7⟩
    rfl rfl (by decide) (by decide) (by decide) (by decide) (by decide)
    rfl rfl rfl rfl rfl

/-- C5: a successful transfer rewrites the SharedRecord replacing only `Owner`;
`ObjectType` (kind), `Name`, `IPFShash` and `Timestamp` are identical, the
restricted partition is untouched, and every composite (IndexEntry) key of the
shared partition is untouched. -/
theorem c5_owner_only_mutation {s : ChaincodeStub} {tin : fileTransferTransientInput} {f : file}
    (hte : s.transientErr = none)
    (hl : lookupT s.transient "file_owner" = some (.transferV tin))
    (hn : tin.Name ≠ "") (ho : tin.Owner ≠ "")
    (hge : s.getErr .collectionFiles (.plain tin.Name) = none)
    (hv : pget s.files (.plain tin.Name) = some (.file f))
    (hpe : s.putErr .collectionFiles (.plain f.Name) = none) :
    FilesPrivateChaincode.transferFile s [] =
      ({ s with files := pput s.files (.plain f.Name)
                  (.file ⟨f.ObjectType, f.Name, f.IPFShash, f.Timestamp, tin.Owner⟩) },
        .success none) ∧
    (FilesPrivateChaincode.transferFile s []).1.details = s.details ∧
    (∀ i segs, pget (FilesPrivateChaincode.transferFile s []).1.files (.composite i segs) =
      pget s.files (.composite i segs)) := by
  have he := transferFile_eval hte hl hn ho hge hv hpe
  refine ⟨he, ?_, ?_⟩
  · rw [he]
  · intro i segs
    rw [he]
    exact pget_pput_ne (by simp)

/-- Stub for the C5 and C10 scenarios: one existing record `f1`, transfer
payload `{name:"f1", owner:"orgB"}`. -/
def c5Stub : ChaincodeStub :=
  cleanStub
    [(.composite "ipfshash~name" ["abc123", "f1"], .sentinel),
     (.plain "f1", .file ⟨"file", "f1", "abc123", 100, "orgA"⟩)]
    [(.plain "f1", .details ⟨"filePrivateDetails", "f1", 7⟩)]
    [("file_owner", .transferV ⟨"f1", "orgB"⟩)]

/-- Witness for C5 at the spec's transfer scenario. -/
theorem c5_owner_only_mutation_witness :
    FilesPrivateChaincode.transferFile c5Stub [] =
      ({ c5Stub with files := pput c5Stub.files (.plain "f1")
                       (.file ⟨"file", "f1", "abc123", 100, "orgB"⟩) },
        .success none) ∧
    (FilesPrivateChaincode.transferFile c5Stub []).1.details = c5Stub.details ∧
    (∀ i segs, pget (FilesPrivateChaincode.transferFile c5Stub []).1.files (.composite i segs) =
      pget c5Stub.files (.composite i segs)) :=
  @c5_owner_only_mutation c5Stub ⟨"f1", "orgB"⟩ ⟨"file", "f1", "abc123", 100, "orgA"⟩
    rfl rfl (by decide) (by decide) rfl (by decide) rfl

/-- C6: a second create with an already-present name fails with the
`AlreadyExists` error `This file already exists: <name>` and returns the ledger
state completely unchanged. -/
theorem c6_uniqueness {s : ChaincodeStub} {inp : fileTransientInput} {v : StateValue}
    (hte : s.transientErr = none)
    (hl : lookupT s.transient "file" = some (.fileV inp))
    (hn : inp.Name ≠ "") (hh : inp.IPFShash ≠ "") (ht : 0 < inp.Timestamp)
    (ho : inp.Owner ≠ "") (hf : 0 < inp.Folio)
    (hge : s.getErr .collectionFiles (.plain inp.Name) = none)
    (hpresent : pget s.files (.plain inp.Name) = some v) :
    FilesPrivateChaincode.initFile s [] =
      (s, .error ("This file already exists: " ++ inp.Name)) := by
  have ht' : ¬inp.Timestamp ≤ 0 := not_le.mpr ht
  have hf' : ¬inp.Folio ≤ 0 := not_le.mpr hf
  unfold FilesPrivateChaincode.initFile
  simp [ChaincodeStub.GetTransient, hte, hl, decodeFileInput, hn, hh, ht', ho, hf',
    ChaincodeStub.GetPrivateData, ChaincodeStub.coll, hge, hpresent]

/-- Stub for the C6 scenario: record `f1` already present, create payload
reusing the name `f1`. -/
def c6Stub : ChaincodeStub :=
  cleanStub
    [(.plain "f1", .file ⟨"file", "f1", "abc123", 100, "orgA"⟩)]
    [(.plain "f1", .details ⟨"filePrivateDetails", "f1", 7⟩)]
    [("file", .fileV ⟨"f1", "otherhash", 200, "orgB", 9⟩)]

/-- Witness for C6: the duplicate create fails AlreadyExists, state unchanged. -/
theorem c6_uniqueness_witness :
    FilesPrivateChaincode.initFile c6Stub [] =
      (c6Stub, .error ("This file already exists: " ++ "f1")) :=
  @c6_uniqueness c6Stub ⟨"f1", "otherhash", 200, "orgB", 9⟩
    (.file ⟨"file", "f1", "abc123", 100, "orgA"⟩)
    rfl rfl (by decide) (by decide) (by decide) (by decide) (by decide) rfl (by decide)

/-- Boolean test that `p` is a prefix of `l` (character lists). -/
def listPrefixOf : List Char → List Char → Bool
  | [], _ => true
  | _ :: _, [] => false
  | a :: as, b :: bs => a == b && listPrefixOf as bs

/-- Boolean test that `pat` occurs contiguously inside `l` (character lists). -/
def listInfixOf (pat : List Char) : List Char → Bool
  | [] => pat.isEmpty
  | b :: bs => listPrefixOf pat (b :: bs) || listInfixOf pat bs

/-- Boolean substring test on strings, used to state that an error message
references (mentions) a field name. -/
def strContains (s pat : String) : Bool := listInfixOf pat.data s.data

/-- Stub for the C7 scenario: create payload with timestamp 0. -/
def c7Stub : ChaincodeStub :=
  cleanStub [] [] [("file", .fileV ⟨"f7", "hash7", 0, "orgA", 7⟩)]

/-- C7 counterexample: the create with timestamp 0 does fail validation before
any write, but the error message is `size field must be a positive integer` —
it references the field's wire name `size` (the leftover JSON tag of the
`Timestamp` field) and does not reference `timestamp` as the claim states. -/
theorem c7_timestamp_message_cex :
    FilesPrivateChaincode.initFile c7Stub [] =
      (c7Stub, .error "size field must be a positive integer") ∧
    strContains "size field must be a positive integer" "timestamp" = false := by
  exact ⟨rfl, by decide⟩

/-- C7 (amended): a create payload whose `Timestamp` is not positive (with the
earlier name and ipfshash validations passing) fails with the validation error
`size field must be a positive integer` — naming the offending field by its
JSON wire name `size`, not `timestamp` — and the ledger state is returned
unchanged, no write having occurred. -/
theorem c7_timestamp_validation {s : ChaincodeStub} {inp : fileTransientInput}
    (hte : s.transientErr = none)
    (hl : lookupT s.transient "file" = some (.fileV inp))
    (hn : inp.Name ≠ "") (hh : inp.IPFShash ≠ "")
    (ht : inp.Timestamp ≤ 0) :
    FilesPrivateChaincode.initFile s [] =
      (s, .error "size field must be a positive integer") ∧
    strContains "size field must be a positive integer" "size" = true := by
  constructor
  · unfold FilesPrivateChaincode.initFile
    simp [ChaincodeStub.GetTransient, hte, hl, decodeFileInput, hn, hh, ht]
  · decide

/-- Witness for the amended C7 at the spec's concrete scenario. -/
theorem c7_timestamp_validation_witness :
    FilesPrivateChaincode.initFile c7Stub [] =
      (c7Stub, .error "size field must be a positive integer") ∧
    strContains "size field must be a positive integer" "size" = true :=
  @c7_timestamp_validation c7Stub ⟨"f7", "hash7", 0, "orgA", 7⟩
    rfl rfl (by decide) (by decide) (by decide)

/-- Stub for the C8 and C9 scenarios: ledger only, no transient input needed. -/
def c8Stub : ChaincodeStub := cleanStub [] [] []

/-- C8 counterexample: `getFilesByRange` invoked with three positional
arguments does not fail — the Go check is `len(args) < 2`, so the extra
argument is ignored and the scan succeeds. -/
theorem c8_argcount_cex :
    FilesPrivateChaincode.getFilesByRange c8Stub [.plain "a", .plain "b", .plain "c"] =
      (c8Stub, .success (some (.queryResults []))) := rfl

/-- C8 (amended): `getFilesByRange` fails with the argument-count error
`Incorrect number of arguments. Expecting 2`, before any ledger access and with
the stub unchanged, exactly when fewer than 2 positional arguments are given;
with 2 or more arguments it proceeds, ignoring arguments beyond the first two. -/
theorem c8_argcount :
    (∀ (s : ChaincodeStub) (args : List Key), args.length < 2 →
      FilesPrivateChaincode.getFilesByRange s args =
        (s, .error "Incorrect number of arguments. Expecting 2")) ∧
    (∀ (s : ChaincodeStub) (a b : Key) (rest : List Key),
      FilesPrivateChaincode.getFilesByRange s (a :: b :: rest) =
        FilesPrivateChaincode.getFilesByRange s [a, b]) := by
  constructor
  · intro s args hlen
    cases args with
    | nil => rfl
    | cons a t =>
      cases t with
      | nil => rfl
      | cons b t2 =>
        exfalso
        simp [List.length_cons] at hlen
        omega
  · intro s a b rest
    rfl

/-- Witness for the amended C8: one argument fails with the argument-count
error; three arguments behave as two. -/
theorem c8_argcount_witness :
    FilesPrivateChaincode.getFilesByRange c8Stub [.plain "a"] =
      (c8Stub, .error "Incorrect number of arguments. Expecting 2") ∧
    FilesPrivateChaincode.getFilesByRange c8Stub [.plain "a", .plain "b", .plain "c"] =
      FilesPrivateChaincode.getFilesByRange c8Stub [.plain "a", .plain "b"] :=
  ⟨c8_argcount.1 c8Stub [.plain "a"] (by decide),
   c8_argcount.2 c8Stub (.plain "a") (.plain "b") [.plain "c"]⟩

/-- C9: for every pair of range keys, when the adapter reports no failure a
`rangeScan` succeeds and returns exactly the shared-partition entries with
`startKey ≤ key < endKey` — every entry in range, IndexEntry sentinels and
SharedRecords alike, with no filtering by value — as a sublist of the adapter's
iteration sequence (order preserved), and in strictly ascending key order
whenever the adapter's sequence is ascending. -/
theorem c9_range_scan {s : ChaincodeStub} {a b : Key}
    (hsorted : s.files.Pairwise (fun x y => keyLtB x.1 y.1 = true))
    (hre : s.rangeErr a b = none) :
    FilesPrivateChaincode.getFilesByRange s [a, b] =
      (s, .success (some (.queryResults (prange s.files a b)))) ∧
    (∀ e, e ∈ prange s.files a b ↔
      e ∈ s.files ∧ keyLeB a e.1 = true ∧ keyLtB e.1 b = true) ∧
    List.Sublist (prange s.files a b) s.files ∧
    (prange s.files a b).Pairwise (fun x y => keyLtB x.1 y.1 = true) := by
  refine ⟨?_, fun e => mem_prange, prange_sublist s.files a b, prange_pairwise hsorted⟩
  unfold FilesPrivateChaincode.getFilesByRange
  simp [ChaincodeStub.GetPrivateDataByRange, hre, ChaincodeStub.coll]

/-- Stub for the C9 witness: a sorted shared partition holding an IndexEntry
sentinel and a SharedRecord. -/
def c9Stub : ChaincodeStub :=
  cleanStub
    [(.composite "ipfshash~name" ["abc123", "f1"], .sentinel),
     (.plain "f1", .file ⟨"file", "f1", "abc123", 100, "orgA"⟩)]
    [] []

/-- Witness for C9: a scan over the whole key space returns both entries, in
order; the membership, sublist and sortedness properties hold. -/
theorem c9_range_scan_witness :
    FilesPrivateChaincode.getFilesByRange c9Stub
        [.composite "ipfshash~name" ["abc123", ""], .plain "zzz"] =
      (c9Stub, .success (some (.queryResults
        (prange c9Stub.files (.composite "ipfshash~name" ["abc123", ""]) (.plain "zzz"))))) ∧
    (∀ e, e ∈ prange c9Stub.files (.composite "ipfshash~name" ["abc123", ""]) (.plain "zzz") ↔
      e ∈ c9Stub.files ∧ keyLeB (.composite "ipfshash~name" ["abc123", ""]) e.1 = true ∧
        keyLtB e.1 (.plain "zzz") = true) ∧
    List.Sublist (prange c9Stub.files (.composite "ipfshash~name" ["abc123", ""]) (.plain "zzz"))
      c9Stub.files ∧
    (prange c9Stub.files (.composite "ipfshash~name" ["abc123", ""]) (.plain "zzz")).Pairwise
      (fun x y => keyLtB x.1 y.1 = true) :=
  @c9_range_scan c9Stub (.composite "ipfshash~name" ["abc123", ""]) (.plain "zzz")
    (by decide) rfl

/-- Stub for the C2 failing input: valid create payload, adapter reporting a
failure for exactly the IndexEntry write. -/
def c2Stub : ChaincodeStub :=
  { cleanStub [] [] [("file", .fileV ⟨"f2", "hash2", 50, "orgA", 3⟩)] with
      putErr := fun c k =>
        if c = .collectionFiles ∧ k = .composite "ipfshash~name" ["hash2", "f2"] then
          some "simulated adapter write failure"
        else none }

/-- C2 (code bug): the Go source discards the error of the third ledger write
(`stub.PutPrivateData` for the IndexEntry, `main.go` line 195).  When the
adapter reports that write failed, `initFile` still returns success, with the
SharedRecord written and the IndexEntry missing — a partial success. -/
theorem c2_partial_success_bug :
    (FilesPrivateChaincode.initFile c2Stub []).2 = .success none ∧
    pget (FilesPrivateChaincode.initFile c2Stub []).1.files (.plain "f2") =
      some (.file ⟨"file", "f2", "hash2", 50, "orgA"⟩) ∧
    pget (FilesPrivateChaincode.initFile c2Stub []).1.details (.plain "f2") =
      some (.details ⟨"filePrivateDetails", "f2", 3⟩) ∧
    pget (FilesPrivateChaincode.initFile c2Stub []).1.files
      (.composite "ipfshash~name" ["hash2", "f2"]) = none := by
  exact ⟨rfl, rfl, rfl, rfl⟩

/-- Stub for the C3 counterexample (same phenomenon as C2, separate instance). -/
def c3Stub : ChaincodeStub :=
  { cleanStub [] [] [("file", .fileV ⟨"f3", "hash3", 60, "orgB", 4⟩)] with
      putErr := fun c k =>
        if c = .collectionFiles ∧ k = .composite "ipfshash~name" ["hash3", "f3"] then
          some "simulated adapter write failure"
        else none }

/-- C3 counterexample: a successful create (on a well-formed, initially empty
shared partition) after which invariant I2 fails — the SharedRecord
`(hash3, f3)` exists but its IndexEntry does not, because `initFile` discards
the index-write failure. -/
theorem c3_index_consistency_cex :
    (FilesPrivateChaincode.initFile c3Stub []).2 = .success none ∧
    ¬ indexConsistent (FilesPrivateChaincode.initFile c3Stub []).1.files := by
  refine ⟨rfl, ?_⟩
  intro hic
  have h1 := (hic "hash3" "f3").mp
    ⟨⟨"file", "f3", "hash3", 60, "orgB"⟩, by decide, rfl, rfl⟩
  rw [show pget (FilesPrivateChaincode.initFile c3Stub []).1.files
      (.composite "ipfshash~name" ["hash3", "f3"]) = none from by decide] at h1
  simp at h1

/-- C3 (amended): provided the ledger adapter reports no failures on
shared-partition writes, every successful operation (dispatched through
`Invoke`) preserves well-formedness of the shared partition, in particular
invariant I2: a SharedRecord with hash H and name N exists iff the IndexEntry
for (H, N) exists.  In particular a successful create installs the index
sentinel for the payload's (hash, name), and a successful delete removes the
index entry of the fetched record. -/
theorem c3_index_consistency :
    (∀ (s s' : ChaincodeStub) (fn : String) (args : List Key) (pl : Option Payload),
      (∀ k, s.putErr .collectionFiles k = none) → WFfiles s.files →
      FilesPrivateChaincode.Invoke s fn args = (s', .success pl) → WFfiles s'.files) ∧
    (∀ (s s' : ChaincodeStub) (args : List Key) (pl : Option Payload)
        (inp : fileTransientInput),
      (∀ k, s.putErr .collectionFiles k = none) →
      lookupT s.transient "file" = some (.fileV inp) →
      FilesPrivateChaincode.initFile s args = (s', .success pl) →
      pget s'.files (.composite "ipfshash~name" [inp.IPFShash, inp.Name]) = some .sentinel) ∧
    (∀ (s s' : ChaincodeStub) (args : List Key) (pl : Option Payload)
        (n : String) (f : file),
      lookupT s.transient "file_delete" = some (.deleteV ⟨n⟩) →
      pget s.files (.plain n) = some (.file f) →
      FilesPrivateChaincode.delete s args = (s', .success pl) →
      pget s'.files (.composite "ipfshash~name" [f.IPFShash, f.Name]) = none) := by
  refine ⟨fun s s' fn args pl hput hwf h => WFfiles_invoke hput hwf h, ?_, ?_⟩
  · intro s s' args pl inp hput hl h
    obtain ⟨-, -, -, tv, inp2, hTV, hDec, -, -, -, -, -, -, -, -, -, hs'⟩ :=
      initFile_success_inv h
    rw [hl] at hTV
    have htv : tv = .fileV inp := (Option.some.inj hTV).symm
    subst htv
    have hinp : inp2 = inp := Option.some.inj (by simpa [decodeFileInput] using hDec.symm)
    rw [hinp] at hs'
    subst hs'
    exact afterCreate_index_present inp (hput _)
  · intro s s' args pl n f hl hv h
    obtain ⟨-, -, -, tv, din, v, f2, hTV, hDec, -, -, hv2, hUm, hs'⟩ :=
      delete_success_inv h
    rw [hl] at hTV
    have htv : tv = .deleteV ⟨n⟩ := (Option.some.inj hTV).symm
    subst htv
    have hdin : din = ⟨n⟩ := Option.some.inj (by simpa [decodeDeleteInput] using hDec.symm)
    rw [hdin] at hv2 hs'
    have hveq : some v = some (StateValue.file f) := hv2.symm.trans hv
    have hvf : v = StateValue.file f := Option.some.inj hveq
    rw [hvf] at hUm
    have hf2 : f2 = f := by simpa [unmarshalFile] using hUm.symm
    rw [hf2] at hs'
    subst hs'
    show pget (perase (perase s.files (.plain n)) (fileIndexKey f))
      (.composite "ipfshash~name" [f.IPFShash, f.Name]) = none
    rw [show (Key.composite "ipfshash~name" [f.IPFShash, f.Name]) = fileIndexKey f from by
      simp [fileIndexKey, CreateCompositeKey]]
    exact pget_perase_self _ _

/-- Stub for the C3 witness: clean adapter, valid create payload. -/
def c3wStub : ChaincodeStub :=
  cleanStub [] [] [("file", .fileV ⟨"g1", "h1", 10, "orgC", 2⟩)]

/-- Stub for the C3 witness delete part: record `g1` present. -/
def c3dStub : ChaincodeStub :=
  cleanStub
    [(.composite "ipfshash~name" ["h1", "g1"], .sentinel),
     (.plain "g1", .file ⟨"file", "g1", "h1", 10, "orgC"⟩)]
    [(.plain "g1", .details ⟨"filePrivateDetails", "g1", 2⟩)]
    [("file_delete", .deleteV ⟨"g1"⟩)]

/-- Witness for the amended C3: a concrete create preserves well-formedness and
installs the index sentinel; a concrete delete removes the index entry. -/
theorem c3_index_consistency_witness :
    WFfiles (FilesPrivateChaincode.Invoke c3wStub "initFile" []).1.files ∧
    pget (FilesPrivateChaincode.initFile c3wStub []).1.files
      (.composite "ipfshash~name" ["h1", "g1"]) = some .sentinel ∧
    pget (FilesPrivateChaincode.delete c3dStub []).1.files
      (.composite "ipfshash~name" ["h1", "g1"]) = none := by
  refine ⟨?_, ?_, ?_⟩
  · exact c3_index_consistency.1 c3wStub _ "initFile" [] none
      (fun k => rfl) WFfiles_nil rfl
  · exact c3_index_consistency.2.1 c3wStub _ [] none ⟨"g1", "h1", 10, "orgC", 2⟩
      (fun k => rfl) rfl rfl
  · exact c3_index_consistency.2.2 c3dStub _ [] none "g1" ⟨"file", "g1", "h1", 10, "orgC"⟩
      rfl (by decide) rfl

/-- C4: co-lifecycle.  After any successful create with payload name N, both
`readFile N` and `readFilePrivateDetails N` succeed, returning the two records.
After any successful delete of N, both fail with their NotFound errors
(`File does not exist` / `File private details does not exist`). -/
theorem c4_co_lifecycle :
    (∀ (s s' : ChaincodeStub) (args : List Key) (pl : Option Payload)
        (inp : fileTransientInput),
      lookupT s.transient "file" = some (.fileV inp) →
      s.getErr .collectionFiles (.plain inp.Name) = none →
      s.getErr .collectionFilePrivateDetails (.plain inp.Name) = none →
      FilesPrivateChaincode.initFile s args = (s', .success pl) →
      FilesPrivateChaincode.readFile s' [.plain inp.Name] =
        (s', .success (some (.bytes
          (.file ⟨"file", inp.Name, inp.IPFShash, inp.Timestamp, inp.Owner⟩)))) ∧
      FilesPrivateChaincode.readFilePrivateDetails s' [.plain inp.Name] =
        (s', .success (some (.bytes
          (.details ⟨"filePrivateDetails", inp.Name, inp.Folio⟩))))) ∧
    (∀ (s s' : ChaincodeStub) (args : List Key) (pl : Option Payload) (n : String),
      lookupT s.transient "file_delete" = some (.deleteV ⟨n⟩) →
      s.getErr .collectionFiles (.plain n) = none →
      s.getErr .collectionFilePrivateDetails (.plain n) = none →
      FilesPrivateChaincode.delete s args = (s', .success pl) →
      FilesPrivateChaincode.readFile s' [.plain n] =
        (s', .error ("\x7b\"Error\":\"File does not exist: " ++ n ++ "\"\x7d")) ∧
      FilesPrivateChaincode.readFilePrivateDetails s' [.plain n] =
        (s', .error ("\x7b\"Error\":\"File private details does not exist: " ++ n ++ "\"\x7d"))) := by
  constructor
  · intro s s' args pl inp hl hge hgd h
    obtain ⟨-, -, -, tv, inp2, hTV, hDec, -, -, -, -, -, -, -, -, -, hs'⟩ :=
      initFile_success_inv h
    rw [hl] at hTV
    have htv : tv = .fileV inp := (Option.some.inj hTV).symm
    subst htv
    have hinp : inp2 = inp := Option.some.inj (by simpa [decodeFileInput] using hDec.symm)
    rw [hinp] at hs'
    subst hs'
    have hge' : (afterCreate s inp).getErr .collectionFiles (.plain inp.Name) = none := by
      simp only [afterCreate]
      exact hge
    have hgd' : (afterCreate s inp).getErr .collectionFilePrivateDetails (.plain inp.Name) = none := by
      simp only [afterCreate]
      exact hgd
    constructor
    · unfold FilesPrivateChaincode.readFile
      simp [ChaincodeStub.GetPrivateData, ChaincodeStub.coll, hge',
        afterCreate_record_present s inp]
    · unfold FilesPrivateChaincode.readFilePrivateDetails
      simp [ChaincodeStub.GetPrivateData, ChaincodeStub.coll, hgd',
        afterCreate_details_present s inp]
  · intro s s' args pl n hl hge hgd h
    obtain ⟨-, -, -, tv, din, v, f2, hTV, hDec, -, -, hv2, hUm, hs'⟩ :=
      delete_success_inv h
    rw [hl] at hTV
    have htv : tv = .deleteV ⟨n⟩ := (Option.some.inj hTV).symm
    subst htv
    have hdin : din = ⟨n⟩ := Option.some.inj (by simpa [decodeDeleteInput] using hDec.symm)
    rw [hdin] at hs'
    subst hs'
    have hnone1 : pget (perase (perase s.files (.plain n)) (fileIndexKey f2)) (.plain n) = none := by
      rw [pget_perase_ne (by simp [fileIndexKey, CreateCompositeKey]), pget_perase_self]
    have hnone2 : pget (perase s.details (.plain n)) (.plain n) = none :=
      pget_perase_self _ _
    constructor
    · unfold FilesPrivateChaincode.readFile
      simp [ChaincodeStub.GetPrivateData, ChaincodeStub.coll, hge, hnone1, keyStr]
    · unfold FilesPrivateChaincode.readFilePrivateDetails
      simp [ChaincodeStub.GetPrivateData, ChaincodeStub.coll, hgd, hnone2, keyStr]

/-- Stub for the C4 witness, create part. -/
def c4cStub : ChaincodeStub :=
  cleanStub [] [] [("file", .fileV ⟨"f4", "hash4", 40, "orgD", 5⟩)]

/-- Stub for the C4 witness, delete part: record `f4` present with its index
entry and private details. -/
def c4dStub : ChaincodeStub :=
  cleanStub
    [(.composite "ipfshash~name" ["hash4", "f4"], .sentinel),
     (.plain "f4", .file ⟨"file", "f4", "hash4", 40, "orgD"⟩)]
    [(.plain "f4", .details ⟨"filePrivateDetails", "f4", 5⟩)]
    [("file_delete", .deleteV ⟨"f4"⟩)]

/-- Witness for C4: concrete create then both reads succeed; concrete delete
then both reads fail NotFound. -/
theorem c4_co_lifecycle_witness :
    (FilesPrivateChaincode.readFile (FilesPrivateChaincode.initFile c4cStub []).1 [.plain "f4"] =
      ((FilesPrivateChaincode.initFile c4cStub []).1,
        .success (some (.bytes (.file ⟨"file", "f4", "hash4", 40, "orgD"⟩)))) ∧
     FilesPrivateChaincode.readFilePrivateDetails
        (FilesPrivateChaincode.initFile c4cStub []).1 [.plain "f4"] =
      ((FilesPrivateChaincode.initFile c4cStub []).1,
        .success (some (.bytes (.details ⟨"filePrivateDetails", "f4", 5⟩))))) ∧
    (FilesPrivateChaincode.readFile (FilesPrivateChaincode.delete c4dStub []).1 [.plain "f4"] =
      ((FilesPrivateChaincode.delete c4dStub []).1,
        .error ("\x7b\"Error\":\"File does not exist: " ++ "f4" ++ "\"\x7d")) ∧
     FilesPrivateChaincode.readFilePrivateDetails
        (FilesPrivateChaincode.delete c4dStub []).1 [.plain "f4"] =
      ((FilesPrivateChaincode.delete c4dStub []).1,
        .error ("\x7b\"Error\":\"File private details does not exist: " ++ "f4" ++ "\"\x7d"))) :=
  ⟨c4_co_lifecycle.1 c4cStub _ [] none ⟨"f4", "hash4", 40, "orgD", 5⟩ rfl rfl rfl rfl,
   c4_co_lifecycle.2 c4dStub _ [] none "f4" rfl rfl rfl rfl⟩

/-- C10: transfer is idempotent.  For an existing record and a transfer payload,
the first transfer succeeds, and running the same transfer again from the
resulting state succeeds and leaves the ledger state exactly unchanged (the
identical record is rewritten). -/
theorem c10_transfer_idempotent {s : ChaincodeStub} {tin : fileTransferTransientInput} {f : file}
    (hte : s.transientErr = none)
    (hl : lookupT s.transient "file_owner" = some (.transferV tin))
    (hn : tin.Name ≠ "") (ho : tin.Owner ≠ "")
    (hge : s.getErr .collectionFiles (.plain tin.Name) = none)
    (hv : pget s.files (.plain tin.Name) = some (.file f))
    (hpe : s.putErr .collectionFiles (.plain f.Name) = none) :
    (FilesPrivateChaincode.transferFile s []).2 = .success none ∧
    FilesPrivateChaincode.transferFile (FilesPrivateChaincode.transferFile s []).1 [] =
      ((FilesPrivateChaincode.transferFile s []).1, .success none) := by
  have he := transferFile_eval hte hl hn ho hge hv hpe
  rw [he]
  refine ⟨rfl, ?_⟩
  show FilesPrivateChaincode.transferFile
      { s with files := pput s.files (.plain f.Name) (.file { f with Owner := tin.Owner }) } [] =
    ({ s with files := pput s.files (.plain f.Name) (.file { f with Owner := tin.Owner }) },
      .success none)
  by_cases hcase : tin.Name = f.Name
  · have hv2 : pget (pput s.files (.plain f.Name) (.file { f with Owner := tin.Owner }))
        (.plain tin.Name) = some (.file { f with Owner := tin.Owner }) := by
      rw [hcase]
      exact pget_pput_self _ _ _
    have he2 := @transferFile_eval
      { s with files := pput s.files (.plain f.Name) (.file { f with Owner := tin.Owner }) }
      tin { f with Owner := tin.Owner } hte hl hn ho hge hv2 hpe
    rw [he2]
    simp [pput_idem]
  · have hv2 : pget (pput s.files (.plain f.Name) (.file { f with Owner := tin.Owner }))
        (.plain tin.Name) = some (.file f) := by
      rw [pget_pput_ne (by simp [hcase])]
      exact hv
    have he2 := @transferFile_eval
      { s with files := pput s.files (.plain f.Name) (.file { f with Owner := tin.Owner }) }
      tin f hte hl hn ho hge hv2 hpe
    rw [he2]
    simp [pput_idem]

/-- Witness for C10 at the concrete transfer scenario. -/
theorem c10_transfer_idempotent_witness :
    (FilesPrivateChaincode.transferFile c5Stub []).2 = .success none ∧
    FilesPrivateChaincode.transferFile (FilesPrivateChaincode.transferFile c5Stub []).1 [] =
      ((FilesPrivateChaincode.transferFile c5Stub []).1, .success none) :=
  @c10_transfer_idempotent c5Stub ⟨"f1", "orgB"⟩ ⟨"file", "f1", "abc123", 100, "orgA"⟩
    rfl rfl (by decide) (by decide) rfl (by decide) rfl
